/-
Verification of the indicator computation engine of the stock_analyzer_bot
repository against its natural-language specification.

The Python source (src/market/services.py, src/market/tasks.py,
src/market/views.py) is shallowly embedded below.  All numeric values
(Python Decimal / float) are modelled as rationals; timestamps are modelled
as integer seconds since the UTC epoch, and `TruncDate` (UTC calendar-day
truncation) becomes floor division by 86400.  Python code that raises an
exception is modelled by an explicit error constructor of the result type.
-/
import Mathlib

/-- One stored price bar (market.models.StockQuote): timestamp plus OHLCV
decimal fields.  `time` is UTC seconds since the epoch. -/
structure Bar where
  time : ℤ
  open_price : ℚ
  high_price : ℚ
  low_price : ℚ
  close_price : ℚ
  volume : ℚ
deriving DecidableEq, Repr

/-- UTC calendar day of a timestamp, as used by `TruncDate('time')`:
floor division of the epoch-second timestamp by 86400. -/
def dayOf (t : ℤ) : ℤ := Int.fdiv t 86400

/-- The 23:59:59 UTC instant of calendar day `d`, the evaluation instant the
backfill driver constructs with `current_date.replace(hour=23, minute=59,
second=59, ...)`. -/
def endOfDay (d : ℤ) : ℤ := d * 86400 + 86399

/-- Python `round` / `Decimal.quantize` tie-breaking: round to the nearest
integer, ties to the even neighbour (banker's rounding). -/
def roundHalfEven (q : ℚ) : ℤ :=
  if q - ⌊q⌋ < 1/2 then ⌊q⌋
  else if q - ⌊q⌋ > 1/2 then ⌊q⌋ + 1
  else if 2 ∣ ⌊q⌋ then ⌊q⌋ else ⌊q⌋ + 1

/-- `round(x, 4)` of the Python source: round to 4 fractional decimal
digits with banker's tie-breaking. -/
def round4 (q : ℚ) : ℚ := (roundHalfEven (q * 10000) : ℚ) / 10000

theorem floor_le_roundHalfEven (q : ℚ) : ⌊q⌋ ≤ roundHalfEven q := by
  unfold roundHalfEven
  split
  · exact le_refl _
  · split
    · exact le_of_lt (lt_add_one _)
    · split
      · exact le_refl _
      · exact le_of_lt (lt_add_one _)

theorem roundHalfEven_le_ceil (q : ℚ) : roundHalfEven q ≤ ⌈q⌉ := by
  unfold roundHalfEven
  have hfc : ⌊q⌋ ≤ ⌈q⌉ := Int.floor_le_ceil q
  split
  · exact hfc
  · have hlt : (⌊q⌋ : ℚ) < q := by
      by_contra hle
      push_neg at hle
      have : q - ⌊q⌋ ≤ 0 := by linarith
      linarith [show ¬(q - ⌊q⌋ < 1/2) from by assumption, this]
    have hstep : ⌊q⌋ + 1 ≤ ⌈q⌉ := by
      have := Int.lt_ceil.mpr hlt
      omega
    split
    · exact hstep
    · split
      · exact hfc
      · exact hstep

theorem roundHalfEven_nonneg {q : ℚ} (h : 0 ≤ q) : 0 ≤ roundHalfEven q := by
  have : (0 : ℤ) ≤ ⌊q⌋ := Int.floor_nonneg.mpr h
  exact le_trans this (floor_le_roundHalfEven q)

theorem round4_nonneg {q : ℚ} (h : 0 ≤ q) : 0 ≤ round4 q := by
  unfold round4
  have h1 : (0 : ℚ) ≤ (roundHalfEven (q * 10000) : ℚ) := by
    exact_mod_cast roundHalfEven_nonneg (by positivity)
  positivity

theorem round4_le_of_le {q c : ℚ} (hc : c * 10000 = ((⌈c * 10000⌉ : ℤ) : ℚ))
    (h : q ≤ c) : round4 q ≤ c := by
  unfold round4
  have h1 : roundHalfEven (q * 10000) ≤ ⌈q * 10000⌉ := roundHalfEven_le_ceil _
  have h2 : ⌈q * 10000⌉ ≤ ⌈c * 10000⌉ := by
    apply Int.ceil_le_ceil
    nlinarith
  have h3 : (roundHalfEven (q * 10000) : ℚ) ≤ ((⌈c * 10000⌉ : ℤ) : ℚ) := by
    exact_mod_cast le_trans h1 h2
  rw [← hc] at h3
  linarith

/-! ## Daily aggregation

Every calculator in services.py regroups the raw bars into calendar days
with `annotate(date=TruncDate('time')).values('date').annotate(...)` and
orders the result by `-date` (most recent day first).  `daysDesc` collects
the distinct UTC days of a bar list in descending order; `aggDay` evaluates
the per-day aggregate expressions. -/

/-- Insert a day into a descending, duplicate-free day list, keeping it
descending and duplicate-free (the `values('date')` grouping key set,
ordered by `-date`). -/
def insertDayDesc (x : ℤ) : List ℤ → List ℤ
  | [] => [x]
  | y :: ys =>
    if x > y then x :: y :: ys
    else if x = y then y :: ys
    else y :: insertDayDesc x ys

/-- The distinct calendar days of a bar list, most recent first
(`values('date') ... order_by('-date')`). -/
def daysDesc (bars : List Bar) : List ℤ :=
  bars.foldl (fun acc b => insertDayDesc (dayOf b.time) acc) []

/-- The bars of one calendar day (the rows grouped under one `date` key). -/
def barsOfDay (bars : List Bar) (d : ℤ) : List Bar :=
  bars.filter (fun b => dayOf b.time = d)

/-- `Max('high_price')` over a day's rows (0 on an empty group, which the
grouping never produces). -/
def maxHigh : List Bar → ℚ
  | [] => 0
  | b :: bs => bs.foldl (fun m x => max m x.high_price) b.high_price

/-- `Min('low_price')` over a day's rows. -/
def minLow : List Bar → ℚ
  | [] => 0
  | b :: bs => bs.foldl (fun m x => min m x.low_price) b.low_price

/-- `Last('close_price', 'time')` over a day's rows: the close of the bar
with the maximum timestamp. -/
def lastClose : List Bar → ℚ
  | [] => 0
  | b :: bs => (bs.foldl (fun m x => if m.time < x.time then x else m) b).close_price

/-- `Sum('volume')` over a day's rows. -/
def sumVolume (l : List Bar) : ℚ := (l.map (fun b => b.volume)).sum

/-- One aggregated day row, as produced by the `values('date').annotate(...)`
daily grouping in services.py. -/
structure DailyRow where
  date : ℤ
  daily_high : ℚ
  daily_low : ℚ
  daily_close : ℚ
  daily_volume : ℚ
deriving DecidableEq, Repr

/-- The aggregate row of one day: high = max, low = min, close = value at
the maximum timestamp, volume = sum (services.py daily grouping). -/
def aggDay (bars : List Bar) (d : ℤ) : DailyRow :=
  { date := d
    daily_high := maxHigh (barsOfDay bars d)
    daily_low := minLow (barsOfDay bars d)
    daily_close := lastClose (barsOfDay bars d)
    daily_volume := sumVolume (barsOfDay bars d) }

/-- Daily aggregation of a bar list, most recent day first (services.py's
`annotate(date=TruncDate('time')).values('date').annotate(daily_high=Max(..),
daily_low=Min(..), daily_close=Last('close_price','time')).order_by('-date')`). -/
def dailyAgg (bars : List Bar) : List DailyRow :=
  (daysDesc bars).map (aggDay bars)

/-- The daily close series, most recent first, used by the moving-average
calculator. -/
def dailyCloses (bars : List Bar) : List ℚ :=
  (dailyAgg bars).map (fun r => r.daily_close)

/-- The day's close as computed by `stock_data_api` in views.py:
`close=Max('close_price')` — the MAXIMUM close value of the day, not the
close of the last bar. -/
def stock_data_api_close (bars : List Bar) (d : ℤ) : Option ℚ :=
  match barsOfDay bars d with
  | [] => none
  | b :: bs => some (bs.foldl (fun m x => max m x.close_price) b.close_price)

/-! ## Moving Average Calculator (services.get_daily_moving_averages) -/

/-- The `window_specs` list of services.get_daily_moving_averages. -/
def window_specs : List (ℕ × String) :=
  [(5, "ma_5"), (20, "ma_20"), (50, "ma_50"), (100, "ma_100"), (200, "ma_200")]

/-- One window of the moving-average loop: if at least `w` daily closes are
available, the mean of the `w` most recent closes rounded to 4 decimals,
else `None`. -/
def maOfWindow (closes : List ℚ) (w : ℕ) : Option ℚ :=
  if w ≤ closes.length then some (round4 ((closes.take w).sum / (w : ℚ)))
  else none

/-- The `results` dict built by services.get_daily_moving_averages from the
most-recent-first daily close list: one entry per window spec. -/
def movingAverages (closes : List ℚ) : List (String × Option ℚ) :=
  window_specs.map (fun ws => (ws.2, maOfWindow closes ws.1))

/-- services.get_daily_moving_averages: group bars into daily closes (most
recent first) and build the per-window result dict. -/
def get_daily_moving_averages (bars : List Bar) : List (String × Option ℚ) :=
  movingAverages (dailyCloses bars)

/-! ## RSI Calculator (services.calculate_rsi) -/

/-- The (gain, loss) rows of the `movement` queryset that survive
`exclude(prev_close__isnull=True)`: one row per consecutive pair of daily
closes in chronological order, with gain = max(change, 0) and
loss = max(-change, 0). -/
def gainsLosses (closes : List ℚ) : List (ℚ × ℚ) :=
  (closes.zip closes.tail).map (fun p => (max (p.2 - p.1) 0, max (p.1 - p.2) 0))

/-- One step of Wilder's smoothing:
`avg = (avg * (period - 1) + current) / period`. -/
def wilderStep (p : ℕ) (avg : ℚ × ℚ) (gl : ℚ × ℚ) : ℚ × ℚ :=
  ((avg.1 * ((p : ℚ) - 1) + gl.1) / (p : ℚ),
   (avg.2 * ((p : ℚ) - 1) + gl.2) / (p : ℚ))

/-- The seed averages: arithmetic mean of gain and loss over the first
`p` valid rows (`valid_movement[:period].aggregate(Avg(..))`). -/
def seedAvgs (gl : List (ℚ × ℚ)) (p : ℕ) : ℚ × ℚ :=
  (((gl.take p).map Prod.fst).sum / (p : ℚ),
   ((gl.take p).map Prod.snd).sum / (p : ℚ))

/-- Final (avg_gain, avg_loss) of calculate_rsi: seed over the first `p`
valid rows, then Wilder's recurrence over the remaining rows in
chronological order. -/
def rsiAvgs (closes : List ℚ) (p : ℕ) : ℚ × ℚ :=
  ((gainsLosses closes).drop p).foldl (wilderStep p) (seedAvgs (gainsLosses closes) p)

/-- The RSI value before final rounding: 100 when avg_loss = 0, otherwise
`100 - 100 / (1 + avg_gain / avg_loss)`. -/
def rsiRaw (avgs : ℚ × ℚ) : ℚ :=
  if avgs.2 = 0 then 100 else 100 - 100 / (1 + avgs.1 / avgs.2)

/-- The rounded output record of a successful calculate_rsi call. -/
structure RSIOk where
  rsi : ℚ
  avg_gain : ℚ
  avg_loss : ℚ
  period : ℤ
deriving DecidableEq, Repr

/-- Result of services.calculate_rsi: a structured validation error for
period < 1, a structured insufficient-data error carrying the available
count, or the rounded RSI record. -/
inductive RSIResult where
  | invalidPeriod (period : ℤ)
  | insufficient (days_available : ℕ) (period : ℤ)
  | ok (r : RSIOk)
deriving DecidableEq, Repr

/-- services.calculate_rsi over the chronological daily close series. -/
def calculate_rsi (closes : List ℚ) (period : ℤ) : RSIResult :=
  if period < 1 then .invalidPeriod period
  else if (gainsLosses closes).length < period.toNat then
    .insufficient (gainsLosses closes).length period
  else
    .ok { rsi := round4 (rsiRaw (rsiAvgs closes period.toNat))
          avg_gain := round4 (rsiAvgs closes period.toNat).1
          avg_loss := round4 (rsiAvgs closes period.toNat).2
          period := period }

/-! ## Volume Trend Calculator (services.get_volume_trend_datapoint and
services.get_volume_trend_daily)

Both variants end in `((latest - avg) / avg) * 100`.  When the average is
exactly 0 the Python Decimal division raises an uncaught
DivisionByZero/InvalidOperation exception; `divisionByZero` models that
raised exception.  A bar list is in ascending time order (the Bar-Store
ordering the window function relies on). -/

inductive VTResult where
  | insufficient
  | divisionByZero
  | ok (avg latest change_percent : ℚ)
deriving DecidableEq, Repr

/-- The trailing window average of the chronologically latest row: the
`Window(Avg('volume'), frame=RowRange(-(days-1), 0))` value of the last bar
of a time-ascending list with at least `days` rows. -/
def datapointAvg (bars : List Bar) (days : ℕ) : ℚ :=
  (((bars.map (fun b => b.volume)).drop (bars.length - days)).sum) / (days : ℚ)

/-- services.get_volume_trend_datapoint on a time-ascending bar list. -/
def get_volume_trend_datapoint (bars : List Bar) (days : ℕ) : VTResult :=
  if bars.length < days then .insufficient
  else
    match bars.getLast? with
    | none => .insufficient
    | some latest =>
      let avg := datapointAvg bars days
      if avg = 0 then .divisionByZero
      else .ok avg latest.volume ((latest.volume - avg) / avg * 100)

/-- The summed volume of each calendar day, most recent day first
(`annotate(date=TruncDate('time')).values('date')
.annotate(daily_volume=Sum('volume')).order_by('-date')`). -/
def dailyVolumes (bars : List Bar) : List ℚ :=
  (daysDesc bars).map (fun d => sumVolume (barsOfDay bars d))

/-- The mean volume of the `days` days strictly before the latest day
(`daily_list[1:days+1]` summed and divided by `days`). -/
def dailyAvg (bars : List Bar) (days : ℕ) : ℚ :=
  (((dailyVolumes bars).drop 1).take days).sum / (days : ℚ)

/-- services.get_volume_trend_daily. -/
def get_volume_trend_daily (bars : List Bar) (days : ℕ) : VTResult :=
  let dl := dailyVolumes bars
  if dl.length < days + 1 then .insufficient
  else
    let latest := dl.headI
    let avg := dailyAvg bars days
    if avg = 0 then .divisionByZero
    else .ok avg latest ((latest - avg) / avg * 100)

/-! ## Price Target Calculator (services.get_price_target) -/

/-- `max(day['daily_high'] for day in daily_list)`. -/
def periodHigh : List DailyRow → ℚ
  | [] => 0
  | r :: rs => rs.foldl (fun m x => max m x.daily_high) r.daily_high

/-- `min(day['daily_low'] for day in daily_list)`. -/
def periodLow : List DailyRow → ℚ
  | [] => 0
  | r :: rs => rs.foldl (fun m x => min m x.daily_low) r.daily_low

/-- Result of services.get_price_target: `None` on an empty daily list,
otherwise the six returned prices. -/
inductive PTResult where
  | noData
  | ok (current_price conservative_target aggressive_target average_price
       period_high period_low : ℚ)
deriving DecidableEq, Repr

/-- services.get_price_target: daily-aggregate the bars (most recent day
first); current price is the latest daily close; if the period high equals
the period low, return the degenerate record in which every price is the
current price; otherwise apply the 0.382/0.618 Fibonacci extensions. -/
def get_price_target (bars : List Bar) : PTResult :=
  match dailyAgg bars with
  | [] => .noData
  | d0 :: rest =>
    let current := d0.daily_close
    let hi := periodHigh (d0 :: rest)
    let lo := periodLow (d0 :: rest)
    if hi = lo then .ok current current current current hi lo
    else
      let price_range := hi - lo
      let avg := ((d0 :: rest).map (fun r => r.daily_close)).sum / ((d0 :: rest).length : ℚ)
      .ok current (current + price_range * (382/1000)) (current + price_range * (618/1000))
        avg hi lo

/-! ## Composite Scorer (services.get_stock_indicators)

The scorer reads the sub-calculator outputs through Python dict accesses:

* `averages.get('ma_w')` may be `None` (fewer than `w` daily closes); the
  comparison `None > x` / `x > None` then raises `TypeError`;
* `volume_trend_daily` itself may be `None` (insufficient days); the
  attribute access `.get` on `None` then raises `AttributeError`;
* `rsi_data.get('rsi', 50)` defaults to 50 when calculate_rsi returned an
  error dict.

A raised exception is modelled as `none`: no signal list, no score. -/

/-- The moving-average dict fields used by the scorer. -/
structure MADict where
  ma_5 : Option ℚ
  ma_20 : Option ℚ
  ma_50 : Option ℚ
  ma_100 : Option ℚ
  ma_200 : Option ℚ
deriving DecidableEq, Repr

/-- The price-target dict fields used by the scorer (present whenever the
scorer reaches them, because the scorer first checks the queryset is
non-empty). -/
structure PriceTargetDict where
  current_price : ℚ
  conservative_target : ℚ
deriving DecidableEq, Repr

/-- services.py signal-threshold constant. -/
def VOLUME_CHANGE_THRESHOLD : ℚ := 20

/-- services.py signal-threshold constant. -/
def RSI_OVERBOUGHT : ℚ := 70

/-- services.py signal-threshold constant. -/
def RSI_OVERSOLD : ℚ := 30

/-- One moving-average crossover comparison `if a > b: +1 else: -1`; when
either operand is `None` the Python comparison raises `TypeError`,
modelled as `none`. -/
def maCrossSignal (a b : Option ℚ) : Option ℤ :=
  match a, b with
  | some x, some y => some (if y < x then 1 else -1)
  | _, _ => none

/-- The `signals` list appended by services.get_stock_indicators, in source
order: four crossover signals, one price-target signal, one volume signal,
one RSI signal.  `none` when any step raises. -/
def get_stock_indicators_signals (mas : MADict) (pt : PriceTargetDict)
    (volume_trend_daily : Option ℚ) (rsi_data : Option ℚ) : Option (List ℤ) :=
  (maCrossSignal mas.ma_5 mas.ma_20).bind fun s1 =>
  (maCrossSignal mas.ma_20 mas.ma_50).bind fun s2 =>
  (maCrossSignal mas.ma_50 mas.ma_100).bind fun s3 =>
  (maCrossSignal mas.ma_100 mas.ma_200).bind fun s4 =>
  let s5 : ℤ := if pt.current_price < pt.conservative_target then 1 else -1
  volume_trend_daily.bind fun volume_change =>
  let s6 : ℤ :=
    if VOLUME_CHANGE_THRESHOLD < volume_change then 1
    else if volume_change < -VOLUME_CHANGE_THRESHOLD then -1
    else 0
  let rsi := rsi_data.getD 50
  let s7 : ℤ :=
    if RSI_OVERBOUGHT < rsi then -1
    else if rsi < RSI_OVERSOLD then 1
    else 0
  some [s1, s2, s3, s4, s5, s6, s7]

/-- The composite score `sum(signals)` of services.get_stock_indicators. -/
def get_stock_indicators_score (mas : MADict) (pt : PriceTargetDict)
    (volume_trend_daily : Option ℚ) (rsi_data : Option ℚ) : Option ℤ :=
  (get_stock_indicators_signals mas pt volume_trend_daily rsi_data).map List.sum

/-! ## Bar-Store read window and the historical-call binding
(services.get_stock_quotes_queryset, tasks.generate_historical_indicators) -/

/-- services.get_stock_quotes_queryset: the quotes a calculation sees are
the bars with `now - (days+1) days <= time <= now`, anchored at the real
current time `now = timezone.now()` — there is no as-of parameter. -/
def get_stock_quotes_queryset (now : ℤ) (days : ℤ) (bars : List Bar) : List Bar :=
  bars.filter (fun b => decide (now - (days + 1) * 86400 ≤ b.time) && decide (b.time ≤ now))

/-- The keyword parameters accepted by services.get_stock_indicators:
`def get_stock_indicators(ticker: str = "X:BTCUSD", days: int = 30)`. -/
def get_stock_indicators_params : List String := ["ticker", "days"]

/-- The keyword arguments tasks.generate_historical_indicators passes to
get_stock_indicators: `ticker=company.ticker, days=30, as_of_date=eval_time`. -/
def generate_historical_call_kwargs : List String := ["ticker", "days", "as_of_date"]

/-- Python keyword-argument binding: a call succeeds only if every keyword
argument names a parameter of the callee; otherwise it raises `TypeError`
("got an unexpected keyword argument"). -/
def callBindsKwargs (params kwargs : List String) : Bool :=
  kwargs.all (fun kw => params.contains kw)

/-! ## Historical Backfill Driver (tasks.generate_historical_indicators)

The driver is modelled over abstract company ids (ℤ), a per-company set of
days that already carry a snapshot (the prefetched `existing_dates`), and a
per-company per-day evaluation outcome `evalRes` standing for the guarded
`get_stock_indicators(...)` call inside the `try` block: `some score` when
the call returns a usable result, `none` when it raises (the exception is
caught and logged) or returns `None`.

The Indicator Store is a list of (company, day, score) rows, appended to by
`batch_insert_stock_indicators` (executed only when `indicators_to_insert`
is non-empty).

Faithful to the source indentation, the whole per-company body — the
prefetch of existing dates, the day loop with its existing-snapshot check
and scorer evaluation, and the batch insert — sits inside `if verbose:`. -/

/-- Observable actions of one backfill run. -/
inductive BackfillEvent where
  | lookup (day : ℤ)
  | evalScorer (day : ℤ)
  | insertBatch (company : ℤ) (count : ℕ)
deriving DecidableEq, Repr

/-- The day loop for one company: for each day check the prefetched
existing-date set; if present, count a skip; otherwise evaluate the scorer
and, when it yields a result, queue (day, score) for insertion.  Returns
(queued insertions, skipped-day count, events). -/
def backfillDays (existing : List ℤ) (evalRes : ℤ → Option ℤ) :
    List ℤ → List (ℤ × ℤ) × ℕ × List BackfillEvent
  | [] => ([], 0, [])
  | d :: rest =>
    let r := backfillDays existing evalRes rest
    if d ∈ existing then (r.1, r.2.1 + 1, .lookup d :: r.2.2)
    else
      match evalRes d with
      | some score => ((d, score) :: r.1, r.2.1, .lookup d :: .evalScorer d :: r.2.2)
      | none => (r.1, r.2.1, .lookup d :: .evalScorer d :: r.2.2)

/-- One company's turn in the backfill loop: run the day loop, then (only
when something was queued) batch-insert the queued snapshots into the
store. -/
def backfillCompanyStep (existing : ℤ → List ℤ) (evalRes : ℤ → ℤ → Option ℤ)
    (days : List ℤ) (acc : List (ℤ × ℤ × ℤ) × List BackfillEvent) (c : ℤ) :
    List (ℤ × ℤ × ℤ) × List BackfillEvent :=
  let r := backfillDays (existing c) (evalRes c) days
  ((if r.1.isEmpty then acc.1
    else acc.1 ++ r.1.map (fun p => (c, p.1, p.2))),
   acc.2 ++ r.2.2 ++
     (if r.1.isEmpty then [] else [BackfillEvent.insertBatch c r.1.length]))

/-- tasks.generate_historical_indicators: when `verbose` is false the whole
per-company body is skipped and the store is returned untouched; when true,
each active company's missing days are evaluated and batch-inserted. -/
def generate_historical_indicators (verbose : Bool) (companies : List ℤ)
    (existing : ℤ → List ℤ) (evalRes : ℤ → ℤ → Option ℤ) (days : List ℤ)
    (store : List (ℤ × ℤ × ℤ)) : List (ℤ × ℤ × ℤ) × List BackfillEvent :=
  if verbose then
    companies.foldl (backfillCompanyStep existing evalRes days) (store, [])
  else (store, [])

/-! ## Concrete inputs used by counterexample and witness theorems -/

/-- Eleven chronological daily closes: two small losses of 0.0256 followed
by eight gains of 2000. -/
def rsiCounterCloses : List ℚ :=
  [10, 99744/10000, 99488/10000, 20099488/10000, 40099488/10000, 60099488/10000,
   80099488/10000, 100099488/10000, 120099488/10000, 140099488/10000, 160099488/10000]

/-- A bar at 00:00:00 UTC of day 0 closing at 10. -/
def viewsBar1 : Bar := ⟨0, 10, 12, 9, 10, 100⟩

/-- A bar at 00:01:00 UTC of day 0 — chronologically last, closing lower
at 5. -/
def viewsBar2 : Bar := ⟨60, 5, 11, 4, 5, 50⟩

/-- A day-0 bar with volume 0. -/
def zeroVolBar1 : Bar := ⟨0, 1, 1, 1, 1, 0⟩

/-- A day-1 bar with volume 0. -/
def zeroVolBar2 : Bar := ⟨86400, 1, 1, 1, 1, 0⟩

/-- A single flat bar: high = low = close = 5. -/
def flatBar : Bar := ⟨0, 5, 5, 5, 5, 1⟩

/-! ## Helper lemmas: backfill driver -/

theorem backfillDays_all_existing (ex : List ℤ) (f : ℤ → Option ℤ) :
    ∀ days : List ℤ, (∀ d ∈ days, d ∈ ex) →
      backfillDays ex f days = ([], days.length, days.map BackfillEvent.lookup)
  | [], _ => rfl
  | d :: rest, h => by
    have hrest := backfillDays_all_existing ex f rest
      (fun x hx => h x (List.mem_cons_of_mem _ hx))
    unfold backfillDays
    rw [hrest, if_pos (h d (List.mem_cons_self _ _))]
    simp

theorem foldl_backfillCompanyStep_store (existing : ℤ → List ℤ)
    (evalRes : ℤ → ℤ → Option ℤ) (days : List ℤ) :
    ∀ (companies : List ℤ) (acc : List (ℤ × ℤ × ℤ) × List BackfillEvent),
      (∀ c ∈ companies, (backfillDays (existing c) (evalRes c) days).1 = []) →
      (companies.foldl (backfillCompanyStep existing evalRes days) acc).1 = acc.1
  | [], _, _ => rfl
  | c :: cs, acc, h => by
    rw [List.foldl_cons]
    rw [foldl_backfillCompanyStep_store existing evalRes days cs _
      (fun x hx => h x (List.mem_cons_of_mem _ hx))]
    have hc := h c (List.mem_cons_self _ _)
    simp [backfillCompanyStep, hc]

/-- C8: re-running the backfill over a range in which every day already has
a snapshot queues zero insertions for every company, skips exactly as many
days as the range contains, and leaves the Indicator Store unchanged. -/
theorem C8_backfill_idempotent_rerun (companies : List ℤ) (existing : ℤ → List ℤ)
    (evalRes : ℤ → ℤ → Option ℤ) (days : List ℤ) (store : List (ℤ × ℤ × ℤ))
    (h : ∀ c ∈ companies, ∀ d ∈ days, d ∈ existing c) :
    (∀ c ∈ companies,
      (backfillDays (existing c) (evalRes c) days).1 = [] ∧
      (backfillDays (existing c) (evalRes c) days).2.1 = days.length) ∧
    (generate_historical_indicators true companies existing evalRes days store).1 = store := by
  have hall : ∀ c ∈ companies,
      backfillDays (existing c) (evalRes c) days = ([], days.length, days.map BackfillEvent.lookup) :=
    fun c hc => backfillDays_all_existing _ _ days (h c hc)
  constructor
  · intro c hc
    rw [hall c hc]
    exact ⟨rfl, rfl⟩
  · unfold generate_historical_indicators
    rw [if_pos rfl]
    exact foldl_backfillCompanyStep_store existing evalRes days companies (store, [])
      (fun c hc => by rw [hall c hc])

/-- C8 witness: a three-day range fully covered by existing snapshots for
the single active company 7: nothing is queued, all three days are skipped,
and the store is unchanged. -/
theorem C8_backfill_idempotent_rerun_witness :
    (backfillDays [0, 1, 2] (fun _ => none) [0, 1, 2]).1 = [] ∧
    (backfillDays [0, 1, 2] (fun _ => none) [0, 1, 2]).2.1 = 3 ∧
    (generate_historical_indicators true [7] (fun _ => [0, 1, 2]) (fun _ _ => none)
      [0, 1, 2] [(5, 5, 5)]).1 = [(5, 5, 5)] := by
  have h := C8_backfill_idempotent_rerun [7] (fun _ => [0, 1, 2]) (fun _ _ => none) [0, 1, 2]
    [(5, 5, 5)] (by decide)
  exact ⟨(h.1 7 (by decide)).1, (h.1 7 (by decide)).2, h.2⟩

/-- C10: invoking the backfill task with verbose = False skips the entire
per-company body: no snapshot lookup, no scorer evaluation, no insertion,
and the Indicator Store is returned unchanged. -/
theorem C10_verbose_false_is_noop (companies : List ℤ) (existing : ℤ → List ℤ)
    (evalRes : ℤ → ℤ → Option ℤ) (days : List ℤ) (store : List (ℤ × ℤ × ℤ)) :
    generate_historical_indicators false companies existing evalRes days store = (store, []) := by
  rfl

/-! ## Helper lemmas: composite scorer -/

theorem Option_bind_const_none {α β : Type} (o : Option α) :
    (o.bind fun _ => (none : Option β)) = none := by
  cases o <;> rfl

theorem maCrossSignal_none_left (b : Option ℚ) : maCrossSignal none b = none := rfl

theorem maCrossSignal_none_right (a : Option ℚ) : maCrossSignal a none = none := by
  cases a <;> rfl

theorem maCrossSignal_cases {a b : Option ℚ} {s : ℤ}
    (h : maCrossSignal a b = some s) : s = -1 ∨ s = 1 := by
  cases a with
  | none => simp [maCrossSignal] at h
  | some x =>
    cases b with
    | none => simp [maCrossSignal] at h
    | some y =>
      simp only [maCrossSignal] at h
      split at h <;> [right; left] <;>
        exact (Option.some.inj h).symm

/-- C1 (amended): every score the Composite Scorer returns is the sum of
exactly 7 directional signals — four moving-average crossover signals in
{−1, +1}, a price-target signal in {−1, +1}, a volume signal and an RSI
signal each in {−1, 0, +1} — and the score lies in [−7, +7] (the upper
bound +7 is attainable, so the spec range [−7, +6] is too tight). -/
theorem C1_composite_score_structure (mas : MADict) (pt : PriceTargetDict)
    (volume_trend_daily rsi_data : Option ℚ) (l : List ℤ)
    (h : get_stock_indicators_signals mas pt volume_trend_daily rsi_data = some l) :
    get_stock_indicators_score mas pt volume_trend_daily rsi_data = some l.sum ∧
    (∃ s1 s2 s3 s4 s5 s6 s7 : ℤ, l = [s1, s2, s3, s4, s5, s6, s7] ∧
      (s1 = -1 ∨ s1 = 1) ∧ (s2 = -1 ∨ s2 = 1) ∧ (s3 = -1 ∨ s3 = 1) ∧
      (s4 = -1 ∨ s4 = 1) ∧ (s5 = -1 ∨ s5 = 1) ∧
      (s6 = -1 ∨ s6 = 0 ∨ s6 = 1) ∧ (s7 = -1 ∨ s7 = 0 ∨ s7 = 1)) ∧
    -7 ≤ l.sum ∧ l.sum ≤ 7 := by
  refine ⟨by simp [get_stock_indicators_score, h], ?_⟩
  unfold get_stock_indicators_signals at h
  simp only [Option.bind_eq_some] at h
  obtain ⟨s1, h1, s2, h2, s3, h3, s4, h4, vc, hvc, hfin⟩ := h
  rw [Option.some_inj] at hfin
  set s5 : ℤ := if pt.current_price < pt.conservative_target then 1 else -1 with hs5
  set s6 : ℤ := if VOLUME_CHANGE_THRESHOLD < vc then 1
    else if vc < -VOLUME_CHANGE_THRESHOLD then -1 else 0 with hs6
  set s7 : ℤ := if RSI_OVERBOUGHT < rsi_data.getD 50 then -1
    else if rsi_data.getD 50 < RSI_OVERSOLD then 1 else 0 with hs7
  have hm1 := maCrossSignal_cases h1
  have hm2 := maCrossSignal_cases h2
  have hm3 := maCrossSignal_cases h3
  have hm4 := maCrossSignal_cases h4
  have hm5 : s5 = -1 ∨ s5 = 1 := by rw [hs5]; split <;> simp
  have hm6 : s6 = -1 ∨ s6 = 0 ∨ s6 = 1 := by rw [hs6]; split <;> [simp; split <;> simp]
  have hm7 : s7 = -1 ∨ s7 = 0 ∨ s7 = 1 := by rw [hs7]; split <;> [simp; split <;> simp]
  have hsum : l.sum = s1 + s2 + s3 + s4 + s5 + s6 + s7 := by
    rw [← hfin]; simp; ring
  refine ⟨⟨s1, s2, s3, s4, s5, s6, s7, hfin.symm, hm1, hm2, hm3, hm4, hm5, hm6, hm7⟩, ?_, ?_⟩ <;>
    rw [hsum] <;> omega

/-- C1 witness: a concrete all-defined input on which the theorem's
hypothesis holds; the seven signals are [1, 1, 1, 1, 1, 1, 1]. -/
theorem C1_composite_score_structure_witness :
    get_stock_indicators_score ⟨some 5, some 4, some 3, some 2, some 1⟩ ⟨10, 11⟩
      (some 25) (some 20) = some ([1, 1, 1, 1, 1, 1, 1] : List ℤ).sum ∧
    -7 ≤ ([1, 1, 1, 1, 1, 1, 1] : List ℤ).sum ∧ ([1, 1, 1, 1, 1, 1, 1] : List ℤ).sum ≤ 7 := by
  have h := C1_composite_score_structure ⟨some 5, some 4, some 3, some 2, some 1⟩ ⟨10, 11⟩
    (some 25) (some 20) [1, 1, 1, 1, 1, 1, 1] (by decide)
  exact ⟨h.1, h.2.2.1, h.2.2.2⟩

/-- C1 counterexample: a combination of indicator inputs — a fully bullish
moving-average ladder, current price below the conservative target, a
volume surge above +20%, and an oversold RSI below 30 — on which the
composite score is +7, outside the claimed range [−7, +6]. -/
theorem C1_score_reaches_seven :
    get_stock_indicators_score ⟨some 10, some 9, some 8, some 7, some 6⟩ ⟨1, 2⟩
      (some 21) (some 29) = some 7 ∧ ¬((7 : ℤ) ≤ 6) := by decide

/-- C4 (amended): when any moving average used by a crossover comparison is
absent (None), the Python comparison raises TypeError, so the Composite
Scorer produces no signal list and no score at all — it crashes instead of
applying a documented default. -/
theorem C4_absent_average_crashes (mas : MADict) (pt : PriceTargetDict)
    (volume_trend_daily rsi_data : Option ℚ)
    (h : mas.ma_5 = none ∨ mas.ma_20 = none ∨ mas.ma_50 = none ∨
         mas.ma_100 = none ∨ mas.ma_200 = none) :
    get_stock_indicators_signals mas pt volume_trend_daily rsi_data = none ∧
    get_stock_indicators_score mas pt volume_trend_daily rsi_data = none := by
  have hsig : get_stock_indicators_signals mas pt volume_trend_daily rsi_data = none := by
    rcases h with h | h | h | h | h <;>
      simp [get_stock_indicators_signals, h, maCrossSignal_none_left,
        maCrossSignal_none_right, Option_bind_const_none]
  exact ⟨hsig, by simp [get_stock_indicators_score, hsig]⟩

/-- C4 witness: with ma_100 absent the scorer yields no signals and no
score. -/
theorem C4_absent_average_crashes_witness :
    get_stock_indicators_signals ⟨some 4, some 3, some 2, none, some 1⟩ ⟨10, 11⟩
      (some 0) (some 50) = none ∧
    get_stock_indicators_score ⟨some 4, some 3, some 2, none, some 1⟩ ⟨10, 11⟩
      (some 0) (some 50) = none :=
  C4_absent_average_crashes ⟨some 4, some 3, some 2, none, some 1⟩ ⟨10, 11⟩
    (some 0) (some 50) (by decide)

/-- C4 counterexample: fewer than 200 daily closes leave ma_200 = None; at
this concrete input the scorer returns no signal contribution at all (the
comparison raises TypeError), refuting the claim that a defined default
signal is produced. -/
theorem C4_no_default_signal_on_absent_ma200 :
    get_stock_indicators_signals ⟨some 5, some 4, some 3, some 2, none⟩ ⟨10, 11⟩
      (some 0) (some 50) = none ∧
    get_stock_indicators_score ⟨some 5, some 4, some 3, some 2, none⟩ ⟨10, 11⟩
      (some 0) (some 50) = none := by decide

/-- C2: the backfill driver's historical evaluation is broken in the code.
First conjunct: the call `get_stock_indicators(ticker=..., days=30,
as_of_date=eval_time)` in tasks.generate_historical_indicators does not
bind — get_stock_indicators accepts only (ticker, days), so every per-day
evaluation raises TypeError (caught and logged; no snapshot is produced).
Second and third conjuncts: the quote window get_stock_indicators would
read is anchored at the real current time, not at the historical day: with
now = day 40 and the default 30-day window, a bar on day 30 — strictly
after the 23:59:59 end of the backfilled day 0 — is included in the
queryset used for day 0, i.e. the selection admits look-ahead. -/
theorem C2_no_historical_as_of_evaluation :
    callBindsKwargs get_stock_indicators_params generate_historical_call_kwargs = false ∧
    get_stock_quotes_queryset (40 * 86400) 30 [⟨30 * 86400, 1, 1, 1, 1, 1⟩] =
      [⟨30 * 86400, 1, 1, 1, 1, 1⟩] ∧
    endOfDay 0 < 30 * 86400 := by decide

/-- C6: the views.py daily aggregation contradicts the invariant.  On a day
holding two bars — the earlier closing at 10, the chronologically last at
5 — stock_data_api's `close=Max('close_price')` reports 10, while the
max-timestamp bar's close (the services.py `Last('close_price','time')`
aggregation, shown by the dailyAgg row) is 5. -/
theorem C6_views_close_uses_price_maximum :
    stock_data_api_close [viewsBar1, viewsBar2] 0 = some 10 ∧
    dailyAgg [viewsBar1, viewsBar2] = [⟨0, 12, 4, 5, 150⟩] ∧
    ((10 : ℚ) ≠ 5) := by
  have h1 : Int.fdiv 60 86400 = 0 := by decide
  have h2 : Int.fdiv 0 86400 = 0 := by decide
  refine ⟨by decide, ?_, by norm_num⟩
  norm_num [dailyAgg, daysDesc, insertDayDesc, dayOf, aggDay, barsOfDay, maxHigh, minLow,
    lastClose, sumVolume, viewsBar1, viewsBar2, h1, h2]

/-! ## Helper lemmas: moving averages -/

theorem maOfWindow_spec (closes : List ℚ) (w : ℕ) (hw : 0 < w) :
    (closes.length < w → maOfWindow closes w = none) ∧
    (w ≤ closes.length → ∃ m : ℚ, maOfWindow closes w = some (round4 m) ∧
      m * (w : ℚ) = (closes.take w).sum ∧ (closes.take w).length = w) := by
  constructor
  · intro h
    unfold maOfWindow
    rw [if_neg (by omega)]
  · intro h
    refine ⟨(closes.take w).sum / (w : ℚ), ?_, ?_, ?_⟩
    · unfold maOfWindow
      rw [if_pos h]
    · have hne : ((w : ℚ)) ≠ 0 := by
        exact_mod_cast Nat.pos_iff_ne_zero.mp hw
      field_simp
    · rw [List.length_take]
      omega

/-- C7: for each window spec (w, key) the moving-average dict maps `key` to
None when fewer than w daily closes are available, and otherwise to the
arithmetic mean of the w most recent closes rounded to 4 decimal digits —
never a partial average. -/
theorem C7_moving_average_windows (closes : List ℚ) (w : ℕ) (key : String)
    (hw : (w, key) ∈ window_specs) :
    (closes.length < w → (movingAverages closes).lookup key = some none) ∧
    (w ≤ closes.length → ∃ m : ℚ,
      (movingAverages closes).lookup key = some (some (round4 m)) ∧
      m * (w : ℚ) = (closes.take w).sum ∧ (closes.take w).length = w) := by
  have hpos : 0 < w := by fin_cases hw <;> norm_num
  have hlk : (movingAverages closes).lookup key = some (maOfWindow closes w) := by
    fin_cases hw <;> rfl
  obtain ⟨ha, hb⟩ := maOfWindow_spec closes w hpos
  refine ⟨fun h => by rw [hlk, ha h], fun h => ?_⟩
  obtain ⟨m, hm1, hm2, hm3⟩ := hb h
  exact ⟨m, by rw [hlk, hm1], hm2, hm3⟩

/-- C7 witness: with six daily closes of 1, the 5-day window is present and
equals the rounded mean 1 of the five most recent closes. -/
theorem C7_moving_average_windows_witness :
    (movingAverages [1, 1, 1, 1, 1, 1]).lookup "ma_5" = some (some (round4 1)) := by
  obtain ⟨m, hm1, hm2, hm3⟩ :=
    (C7_moving_average_windows [1, 1, 1, 1, 1, 1] 5 "ma_5" (by decide)).2 (by decide)
  have hsum : (([1, 1, 1, 1, 1, 1] : List ℚ).take 5).sum = 5 := by norm_num
  have hm : m = 1 := by
    rw [hsum] at hm2
    have h5 : ((5 : ℕ) : ℚ) = 5 := by norm_num
    rw [h5] at hm2
    linarith
  rw [hm] at hm1
  exact hm1

/-! ## Helper lemmas: day ordering -/

theorem mem_insertDayDesc {x v : ℤ} :
    ∀ {l : List ℤ}, x ∈ insertDayDesc v l → x = v ∨ x ∈ l
  | [], h => by
    simpa [insertDayDesc] using h
  | y :: ys, h => by
    unfold insertDayDesc at h
    by_cases hvy : v > y
    · rw [if_pos hvy] at h
      rcases List.mem_cons.mp h with rfl | h
      · exact Or.inl rfl
      · exact Or.inr h
    · rw [if_neg hvy] at h
      by_cases hve : v = y
      · rw [if_pos hve] at h
        exact Or.inr h
      · rw [if_neg hve] at h
        rcases List.mem_cons.mp h with rfl | h
        · exact Or.inr (List.mem_cons_self _ _)
        · rcases mem_insertDayDesc h with h | h
          · exact Or.inl h
          · exact Or.inr (List.mem_cons_of_mem _ h)

theorem pairwise_insertDayDesc (v : ℤ) :
    ∀ (l : List ℤ), l.Pairwise (· > ·) → (insertDayDesc v l).Pairwise (· > ·)
  | [], _ => by simp [insertDayDesc]
  | y :: ys, h => by
    obtain ⟨hy, hys⟩ := List.pairwise_cons.mp h
    unfold insertDayDesc
    by_cases hvy : v > y
    · rw [if_pos hvy]
      refine List.pairwise_cons.mpr ⟨?_, h⟩
      intro z hz
      rcases List.mem_cons.mp hz with rfl | hz
      · exact hvy
      · exact lt_trans (hy z hz) hvy
    · rw [if_neg hvy]
      by_cases hve : v = y
      · rw [if_pos hve]
        exact h
      · rw [if_neg hve]
        refine List.pairwise_cons.mpr ⟨?_, pairwise_insertDayDesc v ys hys⟩
        intro z hz
        rcases mem_insertDayDesc hz with rfl | hz
        · omega
        · exact hy z hz

theorem pairwise_daysDesc (bars : List Bar) : (daysDesc bars).Pairwise (· > ·) := by
  suffices h : ∀ (l : List Bar) (acc : List ℤ), acc.Pairwise (· > ·) →
      (l.foldl (fun acc b => insertDayDesc (dayOf b.time) acc) acc).Pairwise (· > ·) by
    exact h bars [] (by simp)
  intro l
  induction l with
  | nil => exact fun acc h => h
  | cons b bs ih =>
    intro acc h
    exact ih _ (pairwise_insertDayDesc _ _ h)

/-- C9: whenever the daily aggregation is non-empty and the period high
equals the period low, get_price_target returns the degenerate record in
which current price, conservative target, aggressive target and average
price are all exactly the close of the most recent day (the head of the
descending daily aggregation, whose date dominates every aggregated day). -/
theorem C9_flat_range_collapses_to_current (bars : List Bar) (d0 : DailyRow)
    (rest : List DailyRow) (hagg : dailyAgg bars = d0 :: rest)
    (hflat : periodHigh (d0 :: rest) = periodLow (d0 :: rest)) :
    get_price_target bars =
      .ok d0.daily_close d0.daily_close d0.daily_close d0.daily_close
        (periodHigh (d0 :: rest)) (periodLow (d0 :: rest)) ∧
    (∀ r ∈ dailyAgg bars, r.date ≤ d0.date) := by
  constructor
  · unfold get_price_target
    rw [hagg]
    simp only [if_pos hflat]
  · have hpair := pairwise_daysDesc bars
    unfold dailyAgg at hagg
    intro r hr
    unfold dailyAgg at hr
    cases hdd : daysDesc bars with
    | nil =>
      rw [hdd] at hagg
      simp at hagg
    | cons k0 ks =>
      rw [hdd] at hagg hr hpair
      rw [List.map_cons] at hagg
      have hd0 : aggDay bars k0 = d0 := (List.cons.injEq _ _ _ _ ▸ hagg).1
      rcases List.mem_map.mp hr with ⟨k, hk, rfl⟩
      have hdate0 : d0.date = k0 := by rw [← hd0]; rfl
      have hdatek : (aggDay bars k).date = k := rfl
      rw [hdatek, hdate0]
      rcases List.mem_cons.mp hk with rfl | hk
      · exact le_refl _
      · exact le_of_lt ((List.pairwise_cons.mp hpair).1 k hk)

/-- C9 witness: a single flat bar (high = low = close = 5) produces the
degenerate price-target record with every price equal to 5. -/
theorem C9_flat_range_collapses_to_current_witness :
    get_price_target [flatBar] =
      .ok (aggDay [flatBar] 0).daily_close (aggDay [flatBar] 0).daily_close
        (aggDay [flatBar] 0).daily_close (aggDay [flatBar] 0).daily_close
        (periodHigh [aggDay [flatBar] 0]) (periodLow [aggDay [flatBar] 0]) :=
  (C9_flat_range_collapses_to_current [flatBar] (aggDay [flatBar] 0) [] (by rfl) (by rfl)).1

/-- C5 (amended): in both volume-trend variants, whenever enough data is
present to reach the percentage-change computation and the trailing average
volume is exactly 0, the code reaches the division `(latest - avg) / avg`
with a zero Decimal divisor and raises an uncaught division exception
(modelled by the divisionByZero outcome) — it does not return an
absent/None result, and it never returns a numeric result in that case. -/
theorem C5_zero_average_division (bars : List Bar) (days : ℕ) (hd : 1 ≤ days) :
    (days ≤ bars.length → datapointAvg bars days = 0 →
      get_volume_trend_datapoint bars days = .divisionByZero) ∧
    (days + 1 ≤ (dailyVolumes bars).length → dailyAvg bars days = 0 →
      get_volume_trend_daily bars days = .divisionByZero) := by
  constructor
  · intro hlen havg
    unfold get_volume_trend_datapoint
    rw [if_neg (by omega)]
    have hne : bars ≠ [] := by
      intro he
      rw [he] at hlen
      simp at hlen
      omega
    obtain ⟨latest, hl⟩ := Option.isSome_iff_exists.mp (List.getLast?_isSome.mpr hne)
    rw [hl]
    simp only [if_pos havg]
  · intro hlen havg
    unfold get_volume_trend_daily
    simp only
    rw [if_neg (by omega)]
    simp only [if_pos havg]

/-- C5 witness: two zero-volume bars on consecutive days with a one-day
window: both variants hit the zero-average division. -/
theorem C5_zero_average_division_witness :
    get_volume_trend_datapoint [zeroVolBar1, zeroVolBar2] 1 = .divisionByZero ∧
    get_volume_trend_daily [zeroVolBar1, zeroVolBar2] 1 = .divisionByZero := by
  have h := C5_zero_average_division [zeroVolBar1, zeroVolBar2] 1 (by norm_num)
  constructor
  · exact h.1 (by norm_num) (by norm_num [datapointAvg, zeroVolBar1, zeroVolBar2])
  · refine h.2 ?_ ?_
    · have h1 : Int.fdiv 86400 86400 = 1 := by decide
      have h2 : Int.fdiv 0 86400 = 0 := by decide
      norm_num [dailyVolumes, daysDesc, insertDayDesc, dayOf, zeroVolBar1, zeroVolBar2, h1, h2]
    · have h1 : Int.fdiv 86400 86400 = 1 := by decide
      have h2 : Int.fdiv 0 86400 = 0 := by decide
      norm_num [dailyAvg, dailyVolumes, daysDesc, insertDayDesc, dayOf, sumVolume, barsOfDay,
        zeroVolBar1, zeroVolBar2, h1, h2]

/-- C5 counterexample: with a single zero-volume bar (datapoint variant) or
two zero-volume days (daily variant) the calculators do not return an
absent/error value — the division by the zero average raises, refuting the
claim that an uncaught division-by-zero exception never occurs. -/
theorem C5_zero_average_raises_counterexample :
    get_volume_trend_datapoint [zeroVolBar1] 1 = .divisionByZero ∧
    get_volume_trend_datapoint [zeroVolBar1] 1 ≠ .insufficient ∧
    get_volume_trend_daily [⟨0, 1, 1, 1, 1, 0⟩, ⟨86400, 2, 2, 2, 2, 0⟩] 1 = .divisionByZero := by
  have h1 : Int.fdiv 86400 86400 = 1 := by decide
  have h2 : Int.fdiv 0 86400 = 0 := by decide
  refine ⟨?_, ?_, ?_⟩
  · norm_num [get_volume_trend_datapoint, datapointAvg, zeroVolBar1]
  · norm_num [get_volume_trend_datapoint, datapointAvg, zeroVolBar1]
    decide
  · norm_num [get_volume_trend_daily, dailyAvg, dailyVolumes, daysDesc, insertDayDesc,
      dayOf, sumVolume, barsOfDay, h1, h2]

/-! ## Helper lemmas: RSI -/

theorem gainsLosses_nonneg (closes : List ℚ) :
    ∀ x ∈ gainsLosses closes, 0 ≤ x.1 ∧ 0 ≤ x.2 := by
  intro x hx
  unfold gainsLosses at hx
  rcases List.mem_map.mp hx with ⟨q, hq, rfl⟩
  exact ⟨le_max_right _ _, le_max_right _ _⟩

theorem seedAvgs_nonneg {gl : List (ℚ × ℚ)}
    (hgl : ∀ x ∈ gl, 0 ≤ x.1 ∧ 0 ≤ x.2) (p : ℕ) :
    0 ≤ (seedAvgs gl p).1 ∧ 0 ≤ (seedAvgs gl p).2 := by
  unfold seedAvgs
  constructor
  · apply div_nonneg _ (by positivity)
    apply List.sum_nonneg
    intro a ha
    rcases List.mem_map.mp ha with ⟨q, hq, rfl⟩
    exact (hgl q (List.mem_of_mem_take hq)).1
  · apply div_nonneg _ (by positivity)
    apply List.sum_nonneg
    intro a ha
    rcases List.mem_map.mp ha with ⟨q, hq, rfl⟩
    exact (hgl q (List.mem_of_mem_take hq)).2

theorem foldl_wilderStep_nonneg {p : ℕ} (hp : 1 ≤ p) :
    ∀ (l : List (ℚ × ℚ)) (a : ℚ × ℚ), (∀ x ∈ l, 0 ≤ x.1 ∧ 0 ≤ x.2) →
      0 ≤ a.1 → 0 ≤ a.2 →
      0 ≤ (l.foldl (wilderStep p) a).1 ∧ 0 ≤ (l.foldl (wilderStep p) a).2
  | [], a, _, h1, h2 => ⟨h1, h2⟩
  | x :: xs, a, hl, h1, h2 => by
    rw [List.foldl_cons]
    have hx := hl x (List.mem_cons_self _ _)
    have hpq : (1 : ℚ) ≤ (p : ℚ) := by exact_mod_cast hp
    have hm1 : (0 : ℚ) ≤ a.1 * ((p : ℚ) - 1) :=
      mul_nonneg h1 (by linarith)
    have hm2 : (0 : ℚ) ≤ a.2 * ((p : ℚ) - 1) :=
      mul_nonneg h2 (by linarith)
    have hstep1 : 0 ≤ (wilderStep p a x).1 := by
      unfold wilderStep
      exact div_nonneg (by linarith [hx.1]) (by linarith)
    have hstep2 : 0 ≤ (wilderStep p a x).2 := by
      unfold wilderStep
      exact div_nonneg (by linarith [hx.2]) (by linarith)
    exact foldl_wilderStep_nonneg hp xs _
      (fun y hy => hl y (List.mem_cons_of_mem _ hy)) hstep1 hstep2

theorem rsiAvgs_nonneg (closes : List ℚ) {p : ℕ} (hp : 1 ≤ p) :
    0 ≤ (rsiAvgs closes p).1 ∧ 0 ≤ (rsiAvgs closes p).2 := by
  unfold rsiAvgs
  apply foldl_wilderStep_nonneg hp
  · intro x hx
    exact gainsLosses_nonneg closes x (List.mem_of_mem_drop hx)
  · exact (seedAvgs_nonneg (gainsLosses_nonneg closes) p).1
  · exact (seedAvgs_nonneg (gainsLosses_nonneg closes) p).2

theorem rsiRaw_bounds {avgs : ℚ × ℚ} (h1 : 0 ≤ avgs.1) (h2 : 0 ≤ avgs.2) :
    0 ≤ rsiRaw avgs ∧ rsiRaw avgs ≤ 100 := by
  unfold rsiRaw
  split
  · norm_num
  · rename_i hne
    have hpos : 0 < avgs.2 := lt_of_le_of_ne h2 (Ne.symm hne)
    have hrs : 0 ≤ avgs.1 / avgs.2 := div_nonneg h1 (le_of_lt hpos)
    have hd1 : 0 < 100 / (1 + avgs.1 / avgs.2) := by positivity
    have hd2 : 100 / (1 + avgs.1 / avgs.2) ≤ 100 :=
      div_le_self (by norm_num) (by linarith)
    constructor <;> linarith

theorem rsiRaw_eq_100_iff {avgs : ℚ × ℚ} (h1 : 0 ≤ avgs.1) (h2 : 0 ≤ avgs.2) :
    rsiRaw avgs = 100 ↔ avgs.2 = 0 := by
  unfold rsiRaw
  split
  · rename_i hz
    exact iff_of_true rfl hz
  · rename_i hne
    have hpos : 0 < avgs.2 := lt_of_le_of_ne h2 (Ne.symm hne)
    have hrs : 0 ≤ avgs.1 / avgs.2 := div_nonneg h1 (le_of_lt hpos)
    have hd1 : 0 < 100 / (1 + avgs.1 / avgs.2) := by positivity
    exact iff_of_false (by linarith) hne

theorem round4_100 : round4 (100 : ℚ) = 100 := by
  norm_num [round4, roundHalfEven]

/-- C3 (amended): every successful calculate_rsi result has its returned
rsi in [0, 100] and its returned avg_gain and avg_loss non-negative; a zero
final smoothed avg_loss forces a returned rsi of exactly 100; and the
pre-rounding rsi equals 100 exactly when the final smoothed avg_loss is 0.
(The converse fails for the returned, 4-decimal-rounded rsi: see the
counterexample theorem, where the returned rsi is 100 with avg_loss > 0.) -/
theorem C3_rsi_bounds_and_loss_iff (closes : List ℚ) (period : ℤ) (r : RSIOk)
    (h : calculate_rsi closes period = .ok r) :
    0 ≤ r.rsi ∧ r.rsi ≤ 100 ∧ 0 ≤ r.avg_gain ∧ 0 ≤ r.avg_loss ∧
    ((rsiAvgs closes period.toNat).2 = 0 → r.rsi = 100) ∧
    (rsiRaw (rsiAvgs closes period.toNat) = 100 ↔ (rsiAvgs closes period.toNat).2 = 0) := by
  unfold calculate_rsi at h
  split at h
  · simp at h
  · rename_i hperiod
    split at h
    · simp at h
    · rw [RSIResult.ok.injEq] at h
      subst h
      have hp : 1 ≤ period.toNat := by omega
      have havgs := rsiAvgs_nonneg closes hp
      have hbounds := rsiRaw_bounds havgs.1 havgs.2
      have hiff := rsiRaw_eq_100_iff havgs.1 havgs.2
      refine ⟨round4_nonneg hbounds.1, ?_, round4_nonneg havgs.1, round4_nonneg havgs.2,
        ?_, hiff⟩
      · exact round4_le_of_le (by norm_num) hbounds.2
      · intro hz
        show round4 (rsiRaw (rsiAvgs closes period.toNat)) = 100
        rw [hiff.mpr hz, round4_100]

/-- C3 witness: three rising closes with period 1 give rsi = 100,
avg_gain = 1, avg_loss = 0, and the returned rsi is forced to 100 because
the final smoothed loss is 0. -/
theorem C3_rsi_bounds_and_loss_iff_witness :
    0 ≤ (⟨100, 1, 0, 1⟩ : RSIOk).rsi ∧ (⟨100, 1, 0, 1⟩ : RSIOk).rsi ≤ 100 ∧
    0 ≤ (⟨100, 1, 0, 1⟩ : RSIOk).avg_gain ∧ 0 ≤ (⟨100, 1, 0, 1⟩ : RSIOk).avg_loss ∧
    (⟨100, 1, 0, 1⟩ : RSIOk).rsi = 100 := by
  have h := C3_rsi_bounds_and_loss_iff [1, 2, 3] 1 ⟨100, 1, 0, 1⟩ (by
    norm_num [calculate_rsi, gainsLosses, rsiAvgs, seedAvgs, wilderStep, rsiRaw,
      round4, roundHalfEven, Int.toNat_ofNat, Int.fract, List.foldl_cons, List.foldl_nil])
  have hz : (rsiAvgs [1, 2, 3] (1 : ℤ).toNat).2 = 0 := by
    norm_num [rsiAvgs, gainsLosses, seedAvgs, wilderStep, List.foldl_cons, List.foldl_nil]
  exact ⟨h.1, h.2.1, h.2.2.1, h.2.2.2.1, h.2.2.2.2.1 hz⟩

/-- C3 counterexample: eleven closes — two losses of 0.0256 then eight
gains of 2000 — with period 2 drive the smoothed avg_loss down to exactly
0.0001 > 0, yet the returned 4-decimal-rounded rsi is exactly 100 (the
pre-rounding rsi is 100 − 100/19921876): the returned rsi can be 100 even
though the final avg_loss is non-zero and some day-over-day changes are
negative. -/
theorem C3_rounded_rsi_100_with_positive_loss :
    calculate_rsi rsiCounterCloses 2 = .ok ⟨100, 31875/16, 1/10000, 2⟩ ∧
    (rsiAvgs rsiCounterCloses 2).2 = 1/10000 ∧ ((1 : ℚ)/10000 ≠ 0) ∧
    0 < ((gainsLosses rsiCounterCloses).map Prod.snd).sum := by
  have hgl : gainsLosses rsiCounterCloses =
      [(0, 16/625), (0, 16/625), (2000, 0), (2000, 0), (2000, 0), (2000, 0),
       (2000, 0), (2000, 0), (2000, 0), (2000, 0)] := by
    norm_num [gainsLosses, rsiCounterCloses]
  have hfold : rsiAvgs rsiCounterCloses 2 = (31875/16, 1/10000) := by
    unfold rsiAvgs
    rw [hgl]
    norm_num [seedAvgs, wilderStep, List.foldl_cons, List.foldl_nil, Prod.ext_iff]
  have hraw : rsiRaw (rsiAvgs rsiCounterCloses 2) = 498046875/4980469 := by
    rw [hfold]
    norm_num [rsiRaw]
  have hround : round4 (498046875/4980469 : ℚ) = 100 := by
    have hfl : ⌊(498046875/4980469 : ℚ) * 10000⌋ = 999999 := by
      rw [Int.floor_eq_iff]
      norm_num
    norm_num [round4, roundHalfEven, hfl]
  refine ⟨?_, by rw [hfold], by norm_num, ?_⟩
  · unfold calculate_rsi
    rw [if_neg (by norm_num), if_neg (by rw [hgl]; norm_num [Int.toNat_ofNat])]
    rw [show (2 : ℤ).toNat = 2 from rfl]
    rw [hraw, hfold]
    norm_num [RSIResult.ok.injEq, RSIOk.mk.injEq, hround, round4, roundHalfEven]
  · rw [hgl]
    norm_num
